import Mathlib

/-!
# Verification of the korrekt abstract-interpretation engine

Shallow embedding of `korrekt/src/circuit_analyzer/abstract_expr.rs`:
the three-valued abstract domain `AbsResult`, the abstract evaluator
`eval_abstract`, and the column extractor `extract_columns`, together
with theorems checking the specification's claims about them.

Modelling conventions:
* Field elements are a type parameter `F` with decidable equality and a
  zero (the Rust code uses only `is_zero` on constants and scale factors).
  The Fixed branch of the Rust code decides zero-ness of an assigned cell
  by formatting the value with the `Debug` impl (which for halo2 field
  types prints the canonical value as `0x`-prefixed hex), stripping the
  `0x`, and parsing as `u64`.  We model the canonical value by a function
  `val : F → Nat`; the parse succeeds exactly when the value fits in 64
  bits and otherwise the `.unwrap()` panics.
* Rust `i32`/`usize` become `Int`/`Nat`.  The row resolution
  `(rotation + row_num) as usize + region_begin` is modelled by
  `resolveRow`: when `rotation + row_num` is negative, the `as usize`
  cast wraps to at least `2^64 - 2^31`; the subsequent `usize` addition
  then either overflows (a checked-build panic) or produces an index far
  beyond the length of any realizable `Vec` (whose length is below
  `2^63`), so the indexing panics.  The model collapses both outcomes to
  a panic.  (Overflow of the `i32` addition itself is not modelled;
  rotations are small.)
* Panics (out-of-bounds indexing, failed `.unwrap()`) are a distinct
  evaluation outcome `EvalResult.panicked`, separate from the `anyhow`
  error results `EvalResult.err`, which carry the base message plus the
  context messages added by `with_context` during propagation.
* The `HashSet<Selector>` of active selectors becomes a `Finset Nat` of
  selector indices; the `HashSet<(Column<Any>, Rotation)>` result of
  `extract_columns` becomes a `Finset (AdviceColumn × Int)`.
-/

namespace Korrekt

/-- The three-valued abstract domain, from `AbsResult` in
`abstract_expr.rs` (lines 8-13). -/
inductive AbsResult where
  | Variable
  | NonZero
  | Zero
deriving DecidableEq, Repr

/-- Per-cell storage of the fixed table: `CellValue<F>` of the halo2
mock prover (`Unassigned`, `Assigned(F)`, `Poisoned`), as described by
the data model the evaluator consumes. -/
inductive CellValue (F : Type) where
  | Unassigned
  | Assigned (v : F)
  | Poisoned
deriving DecidableEq, Repr

/-- The gate-expression tree, mirroring halo2's `Expression<F>` in the
fields that `abstract_expr.rs` reads: query column index, phase (for
advice) and rotation; constants and scale factors are field elements;
selectors and challenges are identified by index. -/
inductive Expression (F : Type) where
  | Constant (v : F)
  | Selector (s : Nat)
  | Fixed (column_index : Nat) (rotation : Int)
  | Advice (column_index : Nat) (phase : Nat) (rotation : Int)
  | Instance (column_index : Nat) (rotation : Int)
  | Negated (e : Expression F)
  | Sum (l r : Expression F)
  | Product (l r : Expression F)
  | Scaled (e : Expression F) (k : F)
  | Challenge (c : Nat)
deriving DecidableEq, Repr

/-- Outcome of one call to `eval_abstract`: a Rust panic, an `anyhow`
error (base message plus accumulated context messages, most recent
first), or a successful abstract value. -/
inductive EvalResult where
  | panicked
  | err (msgs : List String)
  | ok (r : AbsResult)
deriving DecidableEq, Repr

/-- The context message attached by `with_context` in the `Sum` branch
(note the doubled comma, as in the source at lines 102 and 106). -/
def sumContextMsg (region_begin region_end : Nat) (row_num : Int) : String :=
  "Failed to run abstract evaluation for polynomial at region from row: "
    ++ toString region_begin ++ " to " ++ toString region_end
    ++ ", , at row: " ++ toString row_num ++ "."

/-- The context message attached by `with_context` in the `Product`
branch (lines 120 and 124). -/
def prodContextMsg (region_begin region_end : Nat) (row_num : Int) : String :=
  "Failed to run abstract evaluation for polynomial at region from row: "
    ++ toString region_begin ++ " to " ++ toString region_end
    ++ ", at row: " ++ toString row_num ++ "."

/-- The `anyhow!` message of the `Challenge` branch (line 142). -/
def challengeErrMsg : String :=
  "Challenge expression in abstract evaluation resulted in Invalid Expression"

/-- Models `u64::from_str_radix(format!("{:?}", v).strip_...("0x").unwrap(), 16)`
applied to a field element whose canonical value is `n`: the halo2 field
`Debug` impls print the full canonical value in `0x`-prefixed hex, so the
prefix strip succeeds and the parse yields `n` exactly when `n` fits in a
`u64`; otherwise `from_str_radix` overflows and the `.unwrap()` panics
(`none`). -/
def parseDebugHexU64 (n : Nat) : Option Nat :=
  if n < 2 ^ 64 then some n else none

/-- Models `(fixed_query.rotation.0 + row_num) as usize + region_begin`
(line 85).  A negative sum wraps under `as usize` to at least
`2^64 - 2^31`, after which the `usize` addition overflows (checked-build
panic) or indexes far beyond any realizable `Vec` length; either way the
evaluation panics, so the model returns `none` there. -/
def resolveRow (rotation row_num : Int) (region_begin : Nat) : Option Nat :=
  if rotation + row_num < 0 then none
  else some ((rotation + row_num).toNat + region_begin)

/-- Models the indexing `fixed[col][row]`: `none` is an out-of-bounds
panic. -/
def lookupCell {F : Type} (fixed : List (List (CellValue F)))
    (col row : Nat) : Option (CellValue F) :=
  match fixed.get? col with
  | none => none
  | some column => column.get? row

/-- The `Sum` combination table of `eval_abstract` (lines 109-116),
with the arms in source order. -/
def sumAbs : AbsResult → AbsResult → AbsResult
  | .Variable, _ => .Variable
  | _, .Variable => .Variable
  | .NonZero, .NonZero => .Variable
  | .Zero, .Zero => .Zero
  | .Zero, .NonZero => .NonZero
  | .NonZero, .Zero => .NonZero

/-- The `Product` combination table of `eval_abstract` (lines 127-132),
with the arms in source order. -/
def mulAbs : AbsResult → AbsResult → AbsResult
  | .Zero, _ => .Zero
  | _, .Zero => .Zero
  | .NonZero, .NonZero => .NonZero
  | _, _ => .Variable

/-- The abstract evaluator `eval_abstract` (lines 61-144).  `val` gives
the canonical numeric value of a field element, used by the Fixed branch
exactly as the Rust code uses the debug-hex parse. -/
def eval_abstract {F : Type} [Zero F] [DecidableEq F] (val : F → Nat)
    (expr : Expression F) (selectors : Finset Nat)
    (region_begin region_end : Nat) (row_num : Int)
    (fixed : List (List (CellValue F))) : EvalResult :=
  match expr with
  | .Constant v => if v = 0 then .ok .Zero else .ok .NonZero
  | .Selector s => if s ∈ selectors then .ok .NonZero else .ok .Zero
  | .Fixed col rot =>
    match resolveRow rot row_num region_begin with
    | none => .panicked
    | some row =>
      match lookupCell fixed col row with
      | none => .panicked
      | some cv =>
        match (match cv with
               | .Assigned fixed_val => parseDebugHexU64 (val fixed_val)
               | _ => some 0) with
        | none => .panicked
        | some t => if t = 0 then .ok .Zero else .ok .Variable
  | .Advice _ _ _ => .ok .Variable
  | .Instance _ _ => .ok .Variable
  | .Negated e =>
    eval_abstract val e selectors region_begin region_end row_num fixed
  | .Sum l r =>
    match eval_abstract val l selectors region_begin region_end row_num fixed with
    | .panicked => .panicked
    | .err msgs => .err (sumContextMsg region_begin region_end row_num :: msgs)
    | .ok res1 =>
      match eval_abstract val r selectors region_begin region_end row_num fixed with
      | .panicked => .panicked
      | .err msgs => .err (sumContextMsg region_begin region_end row_num :: msgs)
      | .ok res2 => .ok (sumAbs res1 res2)
  | .Product l r =>
    match eval_abstract val l selectors region_begin region_end row_num fixed with
    | .panicked => .panicked
    | .err msgs => .err (prodContextMsg region_begin region_end row_num :: msgs)
    | .ok res1 =>
      match eval_abstract val r selectors region_begin region_end row_num fixed with
      | .panicked => .panicked
      | .err msgs => .err (prodContextMsg region_begin region_end row_num :: msgs)
      | .ok res2 => .ok (mulAbs res1 res2)
  | .Scaled e k =>
    if k = 0 then .ok .Zero
    else eval_abstract val e selectors region_begin region_end row_num fixed
  | .Challenge _ => .err [challengeErrMsg]

/-- The `Column<Any>` value built by `extract_columns` for an advice
query: the query's column index together with its phase (the pse/axiom
variant of the source carries a phase; the zcash variant is the special
case `phase = 0`). -/
structure AdviceColumn where
  index : Nat
  phase : Nat
deriving DecidableEq, Repr

/-- The inner recursion of `extract_columns` (lines 20-50): inserts the
column and rotation of every `Advice` query into the accumulating set,
recurses through `Sum`, `Product`, `Negated` and `Scaled`, and ignores
every other node. -/
def extractColumnsAux {F : Type} (dst : Finset (AdviceColumn × Int)) :
    Expression F → Finset (AdviceColumn × Int)
  | .Advice column_index phase rotation =>
    insert (⟨column_index, phase⟩, rotation) dst
  | .Sum l r => extractColumnsAux (extractColumnsAux dst l) r
  | .Product l r => extractColumnsAux (extractColumnsAux dst l) r
  | .Negated e => extractColumnsAux dst e
  | .Scaled e _ => extractColumnsAux dst e
  | _ => dst

/-- `extract_columns` (lines 19-54): runs the recursion on an empty
set. -/
def extract_columns {F : Type} (expr : Expression F) :
    Finset (AdviceColumn × Int) :=
  extractColumnsAux ∅ expr

/-- Specification-side definition, following the spec's words for the
constraint extractor: the set of (column, rotation) pairs of the
`Advice` queries occurring anywhere in the expression tree, formed by
structural union; other column kinds contribute nothing. -/
def columns_and_rotations {F : Type} :
    Expression F → Finset (AdviceColumn × Int)
  | .Advice column_index phase rotation =>
    {(⟨column_index, phase⟩, rotation)}
  | .Sum l r => columns_and_rotations l ∪ columns_and_rotations r
  | .Product l r => columns_and_rotations l ∪ columns_and_rotations r
  | .Negated e => columns_and_rotations e
  | .Scaled e _ => columns_and_rotations e
  | _ => ∅

/-- The abstraction of a concrete field element, as computed by the
`Constant` branch of `eval_abstract` (lines 70-76): `Zero` for the field
zero, `NonZero` otherwise. -/
def absOf {F : Type} [Zero F] [DecidableEq F] (a : F) : AbsResult :=
  if a = 0 then .Zero else .NonZero

/-- The abstract effect of `Negated` (line 99): recurse unchanged. -/
def negAbs (r : AbsResult) : AbsResult := r

/-- The abstract effect of `Scaled` (lines 134-139): `Zero` when the
scale factor is the field zero, otherwise the operand's result. -/
def scaleAbs {F : Type} [Zero F] [DecidableEq F] (k : F)
    (r : AbsResult) : AbsResult :=
  if k = 0 then .Zero else r

/-- Concretization of an abstract value: the set of concrete field
elements it stands for. -/
def inGamma {F : Type} [Zero F] (r : AbsResult) (x : F) : Prop :=
  match r with
  | .Zero => x = 0
  | .NonZero => x ≠ 0
  | .Variable => True

/-- Decidable safety condition on the `Fixed` queries of an expression
under a given environment: every `Fixed` query reachable by the
evaluator's recursion resolves to a non-negative row, indexes the fixed
table in bounds, and (when the cell is `Assigned`) holds a value below
`2^64`.  These are exactly the conditions under which the `Fixed` branch
of `eval_abstract` cannot panic. -/
def fixedQueriesSafe {F : Type} (val : F → Nat) (region_begin : Nat)
    (row_num : Int) (fixed : List (List (CellValue F))) :
    Expression F → Bool
  | .Fixed col rot =>
    match resolveRow rot row_num region_begin with
    | none => false
    | some row =>
      match lookupCell fixed col row with
      | none => false
      | some (.Assigned v) => decide (val v < 2 ^ 64)
      | some _ => true
  | .Negated e => fixedQueriesSafe val region_begin row_num fixed e
  | .Sum l r =>
    fixedQueriesSafe val region_begin row_num fixed l
      && fixedQueriesSafe val region_begin row_num fixed r
  | .Product l r =>
    fixedQueriesSafe val region_begin row_num fixed l
      && fixedQueriesSafe val region_begin row_num fixed r
  | .Scaled e _ => fixedQueriesSafe val region_begin row_num fixed e
  | _ => true

/-- Projection to the successful part of an evaluation outcome. -/
def toOk : EvalResult → Option AbsResult
  | .ok r => some r
  | _ => none

/-- C2: for concrete field values and each operator among +, ×, neg and
scale, the abstract result obtained by combining the abstractions with
the evaluator's combination rules is consistent with the abstraction of
the concrete result: the concrete result always lies in the
concretization of the combined abstract value, so the combination is
never wrong and never more precise than the truth; in particular
`NonZero + NonZero` combines to `Variable`, not `NonZero`. -/
theorem abstract_domain_sound {F : Type} [Field F] [DecidableEq F] :
    (∀ a b : F, inGamma (sumAbs (absOf a) (absOf b)) (a + b))
    ∧ (∀ a b : F, inGamma (mulAbs (absOf a) (absOf b)) (a * b))
    ∧ (∀ a : F, inGamma (negAbs (absOf a)) (-a))
    ∧ (∀ k a : F, inGamma (scaleAbs k (absOf a)) (k * a))
    ∧ sumAbs .NonZero .NonZero = .Variable := by
  refine ⟨?_, ?_, ?_, ?_, rfl⟩
  · intro a b
    by_cases ha : a = 0 <;> by_cases hb : b = 0 <;>
      simp [absOf, sumAbs, inGamma, ha, hb]
  · intro a b
    by_cases ha : a = 0 <;> by_cases hb : b = 0 <;>
      simp [absOf, mulAbs, inGamma, ha, hb]
  · intro a
    by_cases ha : a = 0 <;> simp [absOf, negAbs, inGamma, ha]
  · intro k a
    by_cases hk : k = 0 <;> by_cases ha : a = 0 <;>
      simp [absOf, scaleAbs, inGamma, hk, ha]

/-- C3: when both subexpressions of a `Sum` evaluate successfully,
`eval_abstract` combines their abstract results exactly by the table:
any `Variable` operand gives `Variable`; `NonZero` with `NonZero` gives
`Variable`; `Zero` with `Zero` gives `Zero`; `Zero` with `NonZero` in
either order gives `NonZero`. -/
theorem eval_abstract_sum_table {F : Type} [Zero F] [DecidableEq F]
    (val : F → Nat) (l r : Expression F) (selectors : Finset Nat)
    (region_begin region_end : Nat) (row_num : Int)
    (fixed : List (List (CellValue F))) (a b : AbsResult)
    (h1 : eval_abstract val l selectors region_begin region_end row_num fixed
      = .ok a)
    (h2 : eval_abstract val r selectors region_begin region_end row_num fixed
      = .ok b) :
    eval_abstract val (.Sum l r) selectors region_begin region_end row_num fixed
      = .ok (sumAbs a b)
    ∧ (∀ x, sumAbs .Variable x = .Variable)
    ∧ (∀ x, sumAbs x .Variable = .Variable)
    ∧ sumAbs .NonZero .NonZero = .Variable
    ∧ sumAbs .Zero .Zero = .Zero
    ∧ sumAbs .Zero .NonZero = .NonZero
    ∧ sumAbs .NonZero .Zero = .NonZero := by
  refine ⟨?_, ?_, ?_, rfl, rfl, rfl, rfl⟩
  · simp only [eval_abstract, h1, h2]
  · intro x; cases x <;> rfl
  · intro x; cases x <;> rfl

/-- Witness for C3 at a concrete input. -/
theorem eval_abstract_sum_table_spot :
    eval_abstract (fun n => n)
        (Expression.Sum (Expression.Constant (0 : Nat)) (Expression.Constant 3))
        (∅ : Finset Nat) 0 0 0 []
      = EvalResult.ok (sumAbs .Zero .NonZero) :=
  (eval_abstract_sum_table (fun n => n) (Expression.Constant (0 : Nat))
    (Expression.Constant 3) ∅ 0 0 0 [] .Zero .NonZero
    (by decide) (by decide)).1

/-- C4: when both subexpressions of a `Product` evaluate successfully,
`eval_abstract` combines their abstract results exactly by the table:
any `Zero` operand is absorbing and gives `Zero`; `NonZero` with
`NonZero` gives `NonZero`; every other pair gives `Variable`. -/
theorem eval_abstract_product_table {F : Type} [Zero F] [DecidableEq F]
    (val : F → Nat) (l r : Expression F) (selectors : Finset Nat)
    (region_begin region_end : Nat) (row_num : Int)
    (fixed : List (List (CellValue F))) (a b : AbsResult)
    (h1 : eval_abstract val l selectors region_begin region_end row_num fixed
      = .ok a)
    (h2 : eval_abstract val r selectors region_begin region_end row_num fixed
      = .ok b) :
    eval_abstract val (.Product l r) selectors region_begin region_end row_num
        fixed
      = .ok (mulAbs a b)
    ∧ (∀ x, mulAbs .Zero x = .Zero)
    ∧ (∀ x, mulAbs x .Zero = .Zero)
    ∧ mulAbs .NonZero .NonZero = .NonZero
    ∧ mulAbs .NonZero .Variable = .Variable
    ∧ mulAbs .Variable .NonZero = .Variable
    ∧ mulAbs .Variable .Variable = .Variable := by
  refine ⟨?_, ?_, ?_, rfl, rfl, rfl, rfl⟩
  · simp only [eval_abstract, h1, h2]
  · intro x; cases x <;> rfl
  · intro x; cases x <;> rfl

/-- Witness for C4 at a concrete input. -/
theorem eval_abstract_product_table_spot :
    eval_abstract (fun n => n)
        (Expression.Product (Expression.Constant (2 : Nat))
          (Expression.Constant 3))
        (∅ : Finset Nat) 0 0 0 []
      = EvalResult.ok (mulAbs .NonZero .NonZero) :=
  (eval_abstract_product_table (fun n => n) (Expression.Constant (2 : Nat))
    (Expression.Constant 3) ∅ 0 0 0 [] .NonZero .NonZero
    (by decide) (by decide)).1

/-- C8: a `Challenge` expression always makes `eval_abstract` return an
error (the invalid-expression message) and never a successful abstract
value. -/
theorem eval_abstract_challenge_rejected {F : Type} [Zero F] [DecidableEq F]
    (val : F → Nat) (c : Nat) (selectors : Finset Nat)
    (region_begin region_end : Nat) (row_num : Int)
    (fixed : List (List (CellValue F))) :
    eval_abstract val (.Challenge c) selectors region_begin region_end row_num
        fixed
      = .err [challengeErrMsg]
    ∧ ∀ a, eval_abstract val (.Challenge c) selectors region_begin region_end
        row_num fixed ≠ .ok a := by
  refine ⟨rfl, fun a h => ?_⟩
  simp [eval_abstract] at h

/-- The inner recursion of `extract_columns` adds to its accumulator
exactly the advice queries of the expression. -/
theorem extractColumnsAux_eq {F : Type} (e : Expression F) :
    ∀ dst, extractColumnsAux dst e = dst ∪ columns_and_rotations e := by
  induction e with
  | Constant v => intro dst; simp [extractColumnsAux, columns_and_rotations]
  | Selector s => intro dst; simp [extractColumnsAux, columns_and_rotations]
  | Fixed col rot => intro dst; simp [extractColumnsAux, columns_and_rotations]
  | Advice ci ph rot =>
    intro dst
    simp only [extractColumnsAux, columns_and_rotations]
    rw [Finset.insert_eq, Finset.union_comm]
  | Instance col rot =>
    intro dst; simp [extractColumnsAux, columns_and_rotations]
  | Negated e ih =>
    intro dst
    simp only [extractColumnsAux, columns_and_rotations]
    exact ih dst
  | Sum l r ihl ihr =>
    intro dst
    simp only [extractColumnsAux, columns_and_rotations]
    rw [ihl, ihr, Finset.union_assoc]
  | Product l r ihl ihr =>
    intro dst
    simp only [extractColumnsAux, columns_and_rotations]
    rw [ihl, ihr, Finset.union_assoc]
  | Scaled e k ih =>
    intro dst
    simp only [extractColumnsAux, columns_and_rotations]
    exact ih dst
  | Challenge c => intro dst; simp [extractColumnsAux, columns_and_rotations]

/-- C7: `extract_columns` returns exactly the set of (column, rotation)
pairs of the `Advice` queries occurring anywhere in the expression tree
(recursing through `Sum`, `Product`, `Negated`, `Scaled`), with set
semantics; queries of other column kinds contribute nothing. -/
theorem extract_columns_spec {F : Type} (e : Expression F) :
    extract_columns e = columns_and_rotations e := by
  rw [extract_columns, extractColumnsAux_eq, Finset.empty_union]

/-- C1 counterexample: a `Fixed` query whose resolved cell is
`Unassigned` does not produce an error — `eval_abstract` returns
`Ok(Zero)`, silently treating the cell as zero (the `t` accumulator is
initialized to 0 and only overwritten for `Assigned` cells). -/
theorem eval_abstract_unassigned_fixed_no_error :
    eval_abstract (fun n => n) (Expression.Fixed 0 0) (∅ : Finset Nat) 0 0 0
      [[(CellValue.Unassigned : CellValue Nat)]] = EvalResult.ok AbsResult.Zero := by
  decide

/-- C1 amended: for every `Fixed` query whose resolved cell in the fixed
table is `Unassigned` or `Poisoned`, `eval_abstract` returns `Ok(Zero)`:
the cell is silently treated as zero and no `UnassignedFixedCell` error
exists in the code. -/
theorem eval_abstract_unassigned_fixed_ok_zero {F : Type} [Zero F]
    [DecidableEq F] (val : F → Nat) (col : Nat) (rot : Int)
    (selectors : Finset Nat) (region_begin region_end : Nat) (row_num : Int)
    (fixed : List (List (CellValue F))) (row : Nat) (cv : CellValue F)
    (hrow : resolveRow rot row_num region_begin = some row)
    (hcell : lookupCell fixed col row = some cv)
    (hcv : cv = .Unassigned ∨ cv = .Poisoned) :
    eval_abstract val (.Fixed col rot) selectors region_begin region_end
      row_num fixed = .ok .Zero := by
  simp only [eval_abstract, hrow, hcell]
  rcases hcv with h | h <;> subst h <;> rfl

/-- Witness for the amended C1 at a concrete `Poisoned` cell. -/
theorem eval_abstract_unassigned_fixed_ok_zero_spot :
    eval_abstract (fun n => n) (Expression.Fixed 0 0) (∅ : Finset Nat) 0 7 0
      [[(CellValue.Poisoned : CellValue Nat)]] = EvalResult.ok AbsResult.Zero :=
  eval_abstract_unassigned_fixed_ok_zero (fun n => n) 0 0 ∅ 0 7 0
    [[(CellValue.Poisoned : CellValue Nat)]] 0 CellValue.Poisoned
    (by decide) (by decide) (Or.inr rfl)

/-- C5 counterexample: a `Fixed` query whose resolved cell is `Assigned`
with canonical value `2^64` makes `eval_abstract` panic (the `u64` parse
of the debug-hex string overflows and the `.unwrap()` fails) instead of
returning `Zero` or `Variable`. -/
theorem eval_abstract_fixed_big_value_panics :
    eval_abstract (fun n => n) (Expression.Fixed 0 0) (∅ : Finset Nat) 0 0 0
      [[(CellValue.Assigned (2 ^ 64) : CellValue Nat)]]
      = EvalResult.panicked := by
  decide

/-- C5 amended: for every `Fixed` query with `rotation + row`
non-negative whose resolved cell — looked up at absolute row
`(rotation + row) + region_begin` — is `Assigned` with a canonical value
below `2^64` that is faithful to zero-ness, `eval_abstract` returns
`Zero` when the stored value is exactly the field zero and `Variable`
otherwise, never `NonZero`. -/
theorem eval_abstract_fixed_assigned_spec {F : Type} [Zero F] [DecidableEq F]
    (val : F → Nat) (col : Nat) (rot : Int) (selectors : Finset Nat)
    (region_begin region_end : Nat) (row_num : Int)
    (fixed : List (List (CellValue F))) (v : F)
    (hnn : 0 ≤ rot + row_num)
    (hcell : lookupCell fixed col ((rot + row_num).toNat + region_begin)
      = some (.Assigned v))
    (hfit : val v < 2 ^ 64)
    (hfaithful : val v = 0 ↔ v = 0) :
    eval_abstract val (.Fixed col rot) selectors region_begin region_end
        row_num fixed
      = .ok (if v = 0 then .Zero else .Variable) := by
  have hrow : resolveRow rot row_num region_begin
      = some ((rot + row_num).toNat + region_begin) := by
    simp only [resolveRow, if_neg (not_lt.mpr hnn)]
  simp only [eval_abstract, hrow, hcell]
  simp only [parseDebugHexU64, if_pos hfit]
  by_cases hz : v = 0
  · have h0 : val v = 0 := hfaithful.mpr hz
    subst hz
    simp [h0]
  · have hvz : ¬ val v = 0 := fun h => hz (hfaithful.mp h)
    simp [hz, hvz]

/-- Witness for the amended C5 at a concrete assigned nonzero cell. -/
theorem eval_abstract_fixed_assigned_spec_spot :
    eval_abstract (fun n => n) (Expression.Fixed 0 1) (∅ : Finset Nat) 2 9 0
        [[CellValue.Unassigned, CellValue.Unassigned, CellValue.Unassigned,
          (CellValue.Assigned 5 : CellValue Nat)]]
      = EvalResult.ok (if (5 : Nat) = 0 then .Zero else .Variable) :=
  eval_abstract_fixed_assigned_spec (fun n => n) 0 1 ∅ 2 9 0
    [[CellValue.Unassigned, CellValue.Unassigned, CellValue.Unassigned,
      (CellValue.Assigned 5 : CellValue Nat)]] 5
    (by decide) (by decide) (by decide) Iff.rfl

/-- When every `Fixed` query of an expression is safe under the given
environment, `eval_abstract` does not panic. -/
theorem eval_abstract_ne_panicked {F : Type} [Zero F] [DecidableEq F]
    (val : F → Nat) (selectors : Finset Nat)
    (region_begin region_end : Nat) (row_num : Int)
    (fixed : List (List (CellValue F))) :
    ∀ e : Expression F,
      fixedQueriesSafe val region_begin row_num fixed e = true →
      eval_abstract val e selectors region_begin region_end row_num fixed
        ≠ .panicked := by
  intro e
  induction e with
  | Constant v =>
    intro _
    simp only [eval_abstract]
    split <;> simp
  | Selector s =>
    intro _
    simp only [eval_abstract]
    split <;> simp
  | Fixed col rot =>
    intro hsafe
    simp only [fixedQueriesSafe] at hsafe
    simp only [eval_abstract]
    cases hrow : resolveRow rot row_num region_begin with
    | none => rw [hrow] at hsafe; simp at hsafe
    | some row =>
      rw [hrow] at hsafe
      dsimp only at hsafe ⊢
      cases hcell : lookupCell fixed col row with
      | none => rw [hcell] at hsafe; simp at hsafe
      | some cv =>
        rw [hcell] at hsafe
        dsimp only at hsafe ⊢
        cases cv with
        | Unassigned => simp
        | Poisoned => simp
        | Assigned v =>
          have hfit : val v < 2 ^ 64 := by simpa using hsafe
          dsimp only
          simp only [parseDebugHexU64, if_pos hfit]
          split <;> simp
  | Advice ci ph rot => intro _; simp [eval_abstract]
  | Instance col rot => intro _; simp [eval_abstract]
  | Negated e ih =>
    intro hsafe
    simp only [fixedQueriesSafe] at hsafe
    simp only [eval_abstract]
    exact ih hsafe
  | Sum l r ihl ihr =>
    intro hsafe
    simp only [fixedQueriesSafe, Bool.and_eq_true] at hsafe
    simp only [eval_abstract]
    cases hl : eval_abstract val l selectors region_begin region_end row_num
        fixed with
    | panicked => exact absurd hl (ihl hsafe.1)
    | err m => simp
    | ok a =>
      cases hr : eval_abstract val r selectors region_begin region_end row_num
          fixed with
      | panicked => exact absurd hr (ihr hsafe.2)
      | err m => simp
      | ok b => simp
  | Product l r ihl ihr =>
    intro hsafe
    simp only [fixedQueriesSafe, Bool.and_eq_true] at hsafe
    simp only [eval_abstract]
    cases hl : eval_abstract val l selectors region_begin region_end row_num
        fixed with
    | panicked => exact absurd hl (ihl hsafe.1)
    | err m => simp
    | ok a =>
      cases hr : eval_abstract val r selectors region_begin region_end row_num
          fixed with
      | panicked => exact absurd hr (ihr hsafe.2)
      | err m => simp
      | ok b => simp
  | Scaled e k ih =>
    intro hsafe
    simp only [fixedQueriesSafe] at hsafe
    simp only [eval_abstract]
    split
    · simp
    · exact ih hsafe
  | Challenge c => intro _; simp [eval_abstract]

/-- C6 counterexample: `eval_abstract` is not total over the grammar —
a `Fixed` query whose column index is outside the fixed table makes the
indexing `fixed[col][row]` panic rather than return a `Result`. -/
theorem eval_abstract_out_of_bounds_panics :
    eval_abstract (fun n => n) (Expression.Fixed 1 0) (∅ : Finset Nat) 0 0 0
      ([] : List (List (CellValue Nat))) = EvalResult.panicked := by
  decide

/-- C6 amended: `eval_abstract` terminates on every input (it is a total
structural recursion, linear in the expression tree), and, on every
expression whose `Fixed` queries all resolve safely (non-negative
rotation + row, in-bounds indices, assigned values below `2^64`), it
returns a `Result` value — a success or an error, never a panic. -/
theorem eval_abstract_total_when_fixed_safe {F : Type} [Zero F]
    [DecidableEq F] (val : F → Nat) (selectors : Finset Nat)
    (region_begin region_end : Nat) (row_num : Int)
    (fixed : List (List (CellValue F))) (e : Expression F)
    (hsafe : fixedQueriesSafe val region_begin row_num fixed e = true) :
    (∃ r, eval_abstract val e selectors region_begin region_end row_num fixed
        = .ok r)
    ∨ (∃ msgs, eval_abstract val e selectors region_begin region_end row_num
        fixed = .err msgs) := by
  have hnp := eval_abstract_ne_panicked val selectors region_begin region_end
    row_num fixed e hsafe
  cases h : eval_abstract val e selectors region_begin region_end row_num
      fixed with
  | panicked => exact absurd h hnp
  | err m => exact Or.inr ⟨m, rfl⟩
  | ok r => exact Or.inl ⟨r, rfl⟩

/-- Witness for the amended C6 at a concrete expression containing every
recursive constructor and a safe `Fixed` query. -/
theorem eval_abstract_total_when_fixed_safe_spot :
    (∃ r, eval_abstract (fun n => n)
        (Expression.Sum
          (Expression.Product (Expression.Constant (2 : Nat))
            (Expression.Negated (Expression.Fixed 0 0)))
          (Expression.Scaled (Expression.Advice 0 0 0) 3))
        (∅ : Finset Nat) 0 0 0 [[(CellValue.Assigned 4 : CellValue Nat)]]
        = .ok r)
    ∨ (∃ msgs, eval_abstract (fun n => n)
        (Expression.Sum
          (Expression.Product (Expression.Constant (2 : Nat))
            (Expression.Negated (Expression.Fixed 0 0)))
          (Expression.Scaled (Expression.Advice 0 0 0) 3))
        (∅ : Finset Nat) 0 0 0 [[(CellValue.Assigned 4 : CellValue Nat)]]
        = .err msgs) :=
  eval_abstract_total_when_fixed_safe (fun n => n) ∅ 0 0 0
    [[(CellValue.Assigned 4 : CellValue Nat)]]
    (Expression.Sum
      (Expression.Product (Expression.Constant (2 : Nat))
        (Expression.Negated (Expression.Fixed 0 0)))
      (Expression.Scaled (Expression.Advice 0 0 0) 3))
    (by decide)

/-- C9: the `Fixed` branch returns an `Ok` result only when
`rotation + row` is non-negative, the resolved (column, absolute row)
indices are within the bounds of the fixed table, and an `Assigned`
cell's canonical value fits in 64 bits (the debug string of the halo2
field types always carries the `0x` prefix, so that precondition always
holds in the model); and on an input outside these preconditions — here
a negative `rotation + row` — the evaluation panics instead of
returning an error. -/
theorem eval_abstract_fixed_ok_preconditions :
    (∀ {F : Type} [Zero F] [DecidableEq F] (val : F → Nat) (col : Nat)
        (rot : Int) (selectors : Finset Nat) (region_begin region_end : Nat)
        (row_num : Int) (fixed : List (List (CellValue F))) (r : AbsResult),
      eval_abstract val (.Fixed col rot) selectors region_begin region_end
          row_num fixed = .ok r →
      0 ≤ rot + row_num ∧
        ∃ cv, lookupCell fixed col ((rot + row_num).toNat + region_begin)
            = some cv
          ∧ ∀ v, cv = .Assigned v → val v < 2 ^ 64)
    ∧ eval_abstract (fun n => n) (Expression.Fixed 0 (-1)) (∅ : Finset Nat)
        0 0 0 [[(CellValue.Assigned 0 : CellValue Nat)]]
      = EvalResult.panicked := by
  constructor
  · intro F _ _ val col rot selectors region_begin region_end row_num fixed r h
    simp only [eval_abstract] at h
    cases hrow : resolveRow rot row_num region_begin with
    | none => rw [hrow] at h; exact absurd h (by simp)
    | some row =>
      rw [hrow] at h
      dsimp only at h
      have hnn : 0 ≤ rot + row_num := by
        by_contra hneg
        rw [resolveRow, if_pos (lt_of_not_le hneg)] at hrow
        exact Option.noConfusion hrow
      have hrow' : row = (rot + row_num).toNat + region_begin := by
        rw [resolveRow, if_neg (not_lt.mpr hnn)] at hrow
        exact (Option.some.inj hrow).symm
      refine ⟨hnn, ?_⟩
      cases hcell : lookupCell fixed col row with
      | none => rw [hcell] at h; exact absurd h (by simp)
      | some cv =>
        rw [hcell] at h
        dsimp only at h
        refine ⟨cv, hrow' ▸ hcell, ?_⟩
        intro v hv
        subst hv
        dsimp only at h
        by_contra hbig
        rw [parseDebugHexU64, if_neg hbig] at h
        exact absurd h (by simp)
  · decide

/-- Witness for C9 at a concrete in-bounds assigned cell. -/
theorem eval_abstract_fixed_ok_preconditions_spot :
    (0 : Int) ≤ 0 + 0 ∧
      ∃ cv, lookupCell [[(CellValue.Assigned 5 : CellValue Nat)]] 0
          (((0 : Int) + 0).toNat + 0) = some cv
        ∧ ∀ v, cv = .Assigned v → (fun n => n) v < 2 ^ 64 :=
  eval_abstract_fixed_ok_preconditions.1 (fun n => n) 0 0 ∅ 0 0 0
    [[(CellValue.Assigned 5 : CellValue Nat)]] AbsResult.Variable (by decide)

/-- If an evaluation succeeds with some `region_end`, it succeeds with
the same abstract value for any other `region_end`: the argument reaches
only the context messages of propagated errors. -/
theorem eval_abstract_ok_region_end {F : Type} [Zero F] [DecidableEq F]
    (val : F → Nat) (selectors : Finset Nat) (region_begin : Nat)
    (row_num : Int) (fixed : List (List (CellValue F))) (re re' : Nat) :
    ∀ (e : Expression F) (v : AbsResult),
      eval_abstract val e selectors region_begin re row_num fixed = .ok v →
      eval_abstract val e selectors region_begin re' row_num fixed = .ok v := by
  intro e
  induction e with
  | Constant c => intro v h; exact h
  | Selector s => intro v h; exact h
  | Fixed col rot => intro v h; exact h
  | Advice ci ph rot => intro v h; exact h
  | Instance col rot => intro v h; exact h
  | Negated e ih =>
    intro v h
    simp only [eval_abstract] at h ⊢
    exact ih v h
  | Sum l r ihl ihr =>
    intro v h
    simp only [eval_abstract] at h ⊢
    rcases hl : eval_abstract val l selectors region_begin re row_num fixed
      with _ | m | a <;> simp [hl] at h
    rcases hr : eval_abstract val r selectors region_begin re row_num fixed
      with _ | m | b <;> simp [hr] at h
    simp [ihl a hl, ihr b hr, h]
  | Product l r ihl ihr =>
    intro v h
    simp only [eval_abstract] at h ⊢
    rcases hl : eval_abstract val l selectors region_begin re row_num fixed
      with _ | m | a <;> simp [hl] at h
    rcases hr : eval_abstract val r selectors region_begin re row_num fixed
      with _ | m | b <;> simp [hr] at h
    simp [ihl a hl, ihr b hr, h]
  | Scaled e k ih =>
    intro v h
    simp only [eval_abstract] at h ⊢
    by_cases hk : k = 0
    · simpa [hk] using h
    · rw [if_neg hk] at h ⊢
      exact ih v h
  | Challenge c => intro v h; exact h

/-- C10: the successful result of `eval_abstract` does not depend on the
`region_end` argument — with all other arguments equal, if two calls
both return `Ok` then they return the same abstract value;
`region_end` reaches only the error-message context. -/
theorem eval_abstract_region_end_independent {F : Type} [Zero F]
    [DecidableEq F] (val : F → Nat) (e : Expression F)
    (selectors : Finset Nat) (region_begin re re' : Nat) (row_num : Int)
    (fixed : List (List (CellValue F))) (v v' : AbsResult)
    (h : eval_abstract val e selectors region_begin re row_num fixed = .ok v)
    (h' : eval_abstract val e selectors region_begin re' row_num fixed
      = .ok v') :
    v = v' := by
  have h2 := eval_abstract_ok_region_end val selectors region_begin row_num
    fixed re re' e v h
  exact EvalResult.ok.inj (h2.symm.trans h')

/-- Witness for C10: two evaluations of the same expression with
different `region_end` values. -/
theorem eval_abstract_region_end_independent_spot :
    AbsResult.NonZero = AbsResult.NonZero :=
  eval_abstract_region_end_independent (fun n => n)
    (Expression.Sum (Expression.Constant (0 : Nat)) (Expression.Constant 3))
    ∅ 0 0 11 0 [] AbsResult.NonZero AbsResult.NonZero (by decide) (by decide)

end Korrekt
